import Mathlib

/-!
Verification development for the virtual cavity simulator
(`advanced_cavity_gui.py`, `sim_cavity_standalone.py`).

The Python code is embedded shallowly: complex RF samples become `ℂ`,
real-valued parameters become `ℝ`, Python lists become `List`s, and the
per-step cavity integrator `sim_scav_step` (an external library
collaborator) is kept abstract as a function parameter carried in the
simulator configuration.  Python indexing (including negative indices and
IndexError) is modelled explicitly where a claim depends on it.
-/

namespace VirtualCavity

/-- Control parameters of the GUI (`self.control_params` dict:
amp, phase, fsrc, pulsed, ib, gain_dB). -/
structure ControlParams where
  amp : ℝ
  phase : ℝ
  fsrc : ℝ
  pulsed : Bool
  ib : ℝ
  gain_dB : ℝ

/-- Output record of one call to the external integrator `sim_scav_step`:
`status, vc, vr, dw, state_m`. -/
structure ScavOut where
  status : Bool
  vc : ℂ
  vr : ℂ
  dw : ℝ
  state_m : List ℂ

/-- Type of the external cavity-step integrator `sim_scav_step`, taking
`half_bw, dw_step0, detuning0, vf_step, vb, state_vc, Ts, beta, state_m0`
(the discrete state-space matrices are fixed at startup and are folded
into the function). -/
def ScavStep : Type :=
  ℝ → ℝ → ℝ → ℂ → ℂ → ℂ → ℝ → ℝ → List ℂ → ScavOut

/-- Fixed configuration of the simulator set up in
`init_simulation_params` and never mutated afterwards. -/
structure SimConfig where
  Ts : ℝ
  wh : ℝ
  RL : ℝ
  beta : ℝ
  t_fill : ℕ
  t_flat : ℕ
  pul_len : ℕ
  base_pul : List ℂ
  base_cw : ℂ
  beam_cw : ℂ
  stateDim : ℕ
  nModes : ℕ
  integ : ScavStep

/-- The multi-channel history store `self.history_data`:
ten scalar sample channels, one list per mechanical mode, and the four
control-parameter recording channels (`amp`, `phase`, `fsrc`, `pulsed`). -/
@[ext]
structure HistoryData where
  time : List ℝ
  vc_real : List ℝ
  vc_imag : List ℝ
  vc_mag : List ℝ
  vc_phase : List ℝ
  vr_real : List ℝ
  vr_imag : List ℝ
  vr_mag : List ℝ
  vr_phase : List ℝ
  detuning : List ℝ
  mech_modes : List (List ℝ)
  cp_amp : List ℝ
  cp_phase : List ℝ
  cp_fsrc : List ℝ
  cp_pulsed : List Bool

/-- The history store as initialised in `__init__` (and re-initialised at
the start of a CSV load): every channel empty, `nModes` mechanical
channels. -/
def initHistory (nModes : ℕ) : HistoryData :=
  { time := [], vc_real := [], vc_imag := [], vc_mag := [], vc_phase := [],
    vr_real := [], vr_imag := [], vr_mag := [], vr_phase := [], detuning := [],
    mech_modes := List.replicate nModes [],
    cp_amp := [], cp_phase := [], cp_fsrc := [], cp_pulsed := [] }

/-- Mutable simulation state owned by the driver: the fields of the GUI
object that the stepping loop, the recorder and reset mutate. -/
structure SimState where
  state_m : List ℂ
  state_vc : ℂ
  pha_src : ℝ
  buf_id : ℕ
  dw : ℝ
  beam_pul : List ℂ
  history : HistoryData
  recording : Bool
  simulation_running : Bool
  control_params : ControlParams

/-- History capacity `self.max_history = 10000`. -/
def max_history : ℕ := 10000

/-- Python list indexing `xs[i]` for an integer index: non-negative
indices address from the front, negative indices address from the back,
and an index out of range on either side raises (modelled as `none`). -/
def pyIdx (xs : List ℂ) (i : ℤ) : Option ℂ :=
  if 0 ≤ i then xs.get? i.toNat
  else if (-i).toNat ≤ xs.length then xs.get? (xs.length - (-i).toNat) else none

/-- The index expression `buf_id if buf_id < len(xs) else -1` followed by
the Python indexing itself. -/
def pySelect (xs : List ℂ) (i : ℤ) : Option ℂ :=
  pyIdx xs (if i < (xs.length : ℤ) then i else -1)

/-- RF source `sim_rfsrc(fsrc, Asrc, pha_src, Ts)`:
`pha = pha_src + 2.0*np.pi*fsrc*Ts; return Asrc*np.exp(1j*pha), pha`. -/
noncomputable def sim_rfsrc (fsrc Asrc pha_src Ts : ℝ) : ℂ × ℝ :=
  let pha := pha_src + 2 * Real.pi * fsrc * Ts
  ((Asrc : ℂ) * Complex.exp (Complex.I * (pha : ℝ)), pha)

/-- I/Q modulator `sim_iqmod(sig_in, pulsed, base_pul, base_cw, buf_id)`:
pulsed multiplies by `base_pul[buf_id if buf_id < len(base_pul) else -1]`,
continuous wave multiplies by `base_cw`; `none` models an IndexError. -/
def sim_iqmod (sig_in : ℂ) (pulsed : Bool) (base_pul : List ℂ)
    (base_cw : ℂ) (buf_id : ℤ) : Option ℂ :=
  if pulsed then (pySelect base_pul buf_id).map (fun g => sig_in * g)
  else some (sig_in * base_cw)

/-- Amplifier `sim_amp(sig_in, gain_dB) = sig_in * 10.0**(gain_dB/20.0)`. -/
noncomputable def sim_amp (sig_in : ℂ) (gain_dB : ℝ) : ℂ :=
  sig_in * ((((10 : ℝ) ^ (gain_dB / 20) : ℝ)) : ℂ)

/-- Result tuple of `sim_cav`: `vc, vr, dw, state_vc, state_m`. -/
structure CavResult where
  vc : ℂ
  vr : ℂ
  dw : ℝ
  state_vc : ℂ
  state_m : List ℂ

/-- Cavity wrapper `sim_cav`: computes the beam-induced voltage from the
pulsed/CW beam profile, calls the external integrator `sim_scav_step`,
discards its status field, and returns `vc, vr, dw, state_vc, state_m`
with `state_vc = vc`. -/
def sim_cav (integ : ScavStep) (half_bw RL dw_step0 detuning0 : ℝ)
    (vf_step state_vc : ℂ) (Ts beta : ℝ) (state_m0 : List ℂ)
    (pulsed : Bool) (beam_pul : List ℂ) (beam_cw : ℂ) (buf_id : ℤ) : CavResult :=
  let vb : ℂ :=
    if pulsed then -(RL : ℂ) * (pySelect beam_pul buf_id).getD 0
    else -(RL : ℂ) * beam_cw
  let o := integ half_bw dw_step0 detuning0 vf_step vb state_vc Ts beta state_m0
  { vc := o.vc, vr := o.vr, dw := o.dw, state_vc := o.vc, state_m := o.state_m }

/-- Numpy slice assignment `beam_pul[t_fill:t_flat] = ib`. -/
def setSlice (xs : List ℂ) (a b : ℕ) (v : ℂ) : List ℂ :=
  xs.mapIdx (fun j x => if a ≤ j ∧ j < b then v else x)

/-- One driver step `simulation_step`: snapshot the control parameters,
refresh the beam profile, run source → pulse-index update → modulator →
amplifier → microphonics draw → cavity integrator, and write the new
state back.  The injected noise sample models `np.random.randn()`. -/
noncomputable def simulation_step (cfg : SimConfig) (s : SimState) (noise : ℝ) :
    (ℂ × ℂ × ℝ) × SimState :=
  let params := s.control_params
  let beam_pul := setSlice s.beam_pul cfg.t_fill cfg.t_flat (params.ib : ℂ)
  let src := sim_rfsrc params.fsrc params.amp s.pha_src cfg.Ts
  let S0 := src.1
  let pha_src := src.2
  let buf_id :=
    if params.pulsed then
      (if s.buf_id + 1 ≥ cfg.pul_len then 0 else s.buf_id + 1)
    else s.buf_id
  let S1 := (sim_iqmod S0 params.pulsed cfg.base_pul cfg.base_cw (buf_id : ℤ)).getD 0
  let S2 := sim_amp S1 params.gain_dB
  let dw_micr := 2 * Real.pi * noise * 10
  let r := sim_cav cfg.integ cfg.wh cfg.RL s.dw (0 + dw_micr) S2 s.state_vc
      cfg.Ts cfg.beta s.state_m params.pulsed beam_pul cfg.beam_cw (buf_id : ℤ)
  ((r.vc, r.vr, r.dw),
   { s with beam_pul := beam_pul, pha_src := pha_src, buf_id := buf_id,
            dw := r.dw, state_vc := r.state_vc, state_m := r.state_m })

/-- The capacity eviction loop at the top of `store_data`: `pop(0)` on
every scalar channel, and on every non-empty mechanical and
control-parameter channel (`pop(0)` on a non-empty list is `tail`, and
the emptiness guards make the per-mode and per-parameter pops total). -/
def evict (h : HistoryData) : HistoryData :=
  { time := h.time.tail, vc_real := h.vc_real.tail, vc_imag := h.vc_imag.tail,
    vc_mag := h.vc_mag.tail, vc_phase := h.vc_phase.tail,
    vr_real := h.vr_real.tail, vr_imag := h.vr_imag.tail,
    vr_mag := h.vr_mag.tail, vr_phase := h.vr_phase.tail,
    detuning := h.detuning.tail,
    mech_modes := h.mech_modes.map List.tail,
    cp_amp := h.cp_amp.tail, cp_phase := h.cp_phase.tail,
    cp_fsrc := h.cp_fsrc.tail, cp_pulsed := h.cp_pulsed.tail }

/-- The per-mode recording loop `for i in range(nModes):
history_data[mech_modes][i].append(real(state_m[0,i]))`, walking the
channel list with its index; the `try/except` substitutes `0` when the
state vector has no entry `i`. -/
def mechAppend (sm : List ℂ) (nModes i : ℕ) : List (List ℝ) → List (List ℝ)
  | [] => []
  | ch :: rest =>
      (if i < nModes then ch ++ [(sm.getD i 0).re] else ch) ::
        mechAppend sm nModes (i + 1) rest

/-- One `store_data(current_time, vc, vr, dw)` call: evict when the time
channel has reached `max_history`, append the sample to every channel,
and, while recording, append the control-parameter snapshots.  The
returned flag records that the recording loop then raises a `KeyError`
(the `control_params` history dict has no `ib` key), after the four
existing channels have already been appended. -/
noncomputable def store_data (nModes : ℕ) (rec : Bool) (cp : ControlParams)
    (state_m : List ℂ) (t : ℝ) (vc vr : ℂ) (dw : ℝ) (h : HistoryData) :
    HistoryData × Bool :=
  let h := if h.time.length ≥ max_history then evict h else h
  let h :=
    { h with
      time := h.time ++ [t],
      vc_real := h.vc_real ++ [vc.re], vc_imag := h.vc_imag ++ [vc.im],
      vc_mag := h.vc_mag ++ [Complex.abs vc],
      vc_phase := h.vc_phase ++ [Complex.arg vc * 180 / Real.pi],
      vr_real := h.vr_real ++ [vr.re], vr_imag := h.vr_imag ++ [vr.im],
      vr_mag := h.vr_mag ++ [Complex.abs vr],
      vr_phase := h.vr_phase ++ [Complex.arg vr * 180 / Real.pi],
      detuning := h.detuning ++ [dw / (2 * Real.pi)],
      mech_modes := mechAppend state_m nModes 0 h.mech_modes }
  if rec then
    ({ h with cp_amp := h.cp_amp ++ [cp.amp], cp_phase := h.cp_phase ++ [cp.phase],
              cp_fsrc := h.cp_fsrc ++ [cp.fsrc], cp_pulsed := h.cp_pulsed ++ [cp.pulsed] },
     true)
  else (h, false)

/-- Events an execution can perform against the history store: a
`store_data` call (with the control parameters and mechanical state it
reads at that moment) or a `toggle_recording` click. -/
inductive HEvent
  | store (cp : ControlParams) (sm : List ℂ) (t : ℝ) (vc vr : ℂ) (dw : ℝ)
  | toggleRec

/-- History store plus the recording flag. -/
structure RecState where
  hist : HistoryData
  recording : Bool

/-- Apply one event. -/
noncomputable def applyEvent (nModes : ℕ) (st : RecState) : HEvent → RecState
  | .store cp sm t vc vr dw =>
      { st with hist := (store_data nModes st.recording cp sm t vc vr dw st.hist).1 }
  | .toggleRec => { st with recording := !st.recording }

/-- Run a sequence of events from the freshly initialised store with
recording off. -/
noncomputable def runEvents (nModes : ℕ) (evs : List HEvent) : RecState :=
  evs.foldl (applyEvent nModes) ⟨initHistory nModes, false⟩

/-- The history clearing loop of `reset_simulation`: `clear()` on every
scalar channel, on each mechanical channel in place (the outer list keeps
its length), and on each control-parameter channel. -/
def clear_history (h : HistoryData) : HistoryData :=
  { time := [], vc_real := [], vc_imag := [], vc_mag := [], vc_phase := [],
    vr_real := [], vr_imag := [], vr_mag := [], vr_phase := [], detuning := [],
    mech_modes := h.mech_modes.map (fun _ => []),
    cp_amp := [], cp_phase := [], cp_fsrc := [], cp_pulsed := [] }

/-- `reset_simulation`: stop the loop, zero the cavity state and the
oscillator phase, pulse index and detuning, and clear the history store;
`control_params` and the beam profile are not touched. -/
def reset_simulation (cfg : SimConfig) (s : SimState) : SimState :=
  { s with simulation_running := false,
           state_m := List.replicate cfg.stateDim 0,
           state_vc := 0, pha_src := 0, buf_id := 0, dw := 0,
           history := clear_history s.history }

/-- The four parameters offered by the scan combo box. -/
inductive ScanParam
  | amp
  | phase
  | fsrc
  | ib

/-- `self.control_params[param]` read. -/
def getParam (cp : ControlParams) : ScanParam → ℝ
  | .amp => cp.amp
  | .phase => cp.phase
  | .fsrc => cp.fsrc
  | .ib => cp.ib

/-- `self.control_params[param] = value` write. -/
def setParam (cp : ControlParams) : ScanParam → ℝ → ControlParams
  | .amp, v => { cp with amp := v }
  | .phase, v => { cp with phase := v }
  | .fsrc, v => { cp with fsrc := v }
  | .ib, v => { cp with ib := v }

/-- `np.linspace(a, b, n)`: `n` points `a + (b-a)*i/(n-1)`. -/
noncomputable def linspace (a b : ℝ) (n : ℕ) : List ℝ :=
  (List.range n).map (fun i : ℕ => a + (b - a) * (i : ℝ) / ((n : ℝ) - 1))

/-- Run `n` consecutive `simulation_step` calls, feeding noise samples
`ν k, ν (k+1), …`, and return the `(vc, vr, dw)` of the last step together
with the final state (the `for _ in range(100)` settling loop). -/
noncomputable def runSteps (cfg : SimConfig) (ν : ℕ → ℝ) :
    ℕ → ℕ → SimState → ((ℂ × ℂ × ℝ) × SimState)
  | 0, _, s => ((0, 0, 0), s)
  | n + 1, k, s =>
      let r := simulation_step cfg s (ν k)
      if n = 0 then r else runSteps cfg ν n (k + 1) r.2

/-- The body of the scan sweep: for each setpoint, write it into the
control parameters, run the 100-step settling window, and record
`(value, np.abs(vc) * 1e-6)`.  The trailing natural number counts the
driver steps performed. -/
noncomputable def scanGo (cfg : SimConfig) (param : ScanParam) (ν : ℕ → ℝ) :
    List ℝ → ℕ → SimState → (List (ℝ × ℝ) × SimState × ℕ)
  | [], k, s => ([], s, k)
  | v :: rest, k, s =>
      let s1 := { s with control_params := setParam s.control_params param v }
      let r := runSteps cfg ν 100 k s1
      let tail := scanGo cfg param ν rest (k + 100) r.2
      ((v, Complex.abs r.1.1 * (1 / 1000000)) :: tail.1, tail.2)

/-- `parameter_scan(param, min_val, max_val)`: sweep
`np.linspace(min_val, max_val, 20)`, then restore the swept parameter to
the value read before the sweep. -/
noncomputable def parameter_scan (cfg : SimConfig) (param : ScanParam)
    (min_val max_val : ℝ) (ν : ℕ → ℝ) (s : SimState) :
    List (ℝ × ℝ) × SimState × ℕ :=
  let original_value := getParam s.control_params param
  let r := scanGo cfg param ν (linspace min_val max_val 20) 0 s
  (r.1,
   { r.2.1 with control_params := setParam r.2.1.control_params param original_value },
   r.2.2)

/-- `start_parameter_scan`: reject `min_val >= max_val` with an error
before any stepping, otherwise run the sweep.  The result carries the
scan outcome, the state afterwards and the number of driver steps run. -/
noncomputable def start_parameter_scan (cfg : SimConfig) (param : ScanParam)
    (min_val max_val : ℝ) (ν : ℕ → ℝ) (s : SimState) :
    Except Unit (List (ℝ × ℝ)) × SimState × ℕ :=
  if min_val ≥ max_val then (.error (), s, 0)
  else
    let r := parameter_scan cfg param min_val max_val ν s
    (.ok r.1, r.2.1, r.2.2)

/-- One CSV data row written by `save_data`: `time, vc_mag, vc_phase,
vr_mag, detuning`, then one entry per mechanical mode (`0` when that
mode channel is shorter than the time channel). -/
def csvRow (nModes : ℕ) (h : HistoryData) (i : ℕ) : List ℝ :=
  [h.time.getD i 0, h.vc_mag.getD i 0, h.vc_phase.getD i 0,
   h.vr_mag.getD i 0, h.detuning.getD i 0] ++
    (List.range nModes).map
      (fun j => if i < (h.mech_modes.getD j []).length
                then (h.mech_modes.getD j []).getD i 0 else 0)

/-- The CSV encoding of `save_data` (data rows; the header line is
skipped by the loader). -/
def save_csv (nModes : ℕ) (h : HistoryData) : List (List ℝ) :=
  (List.range h.time.length).map (csvRow nModes h)

/-- The per-mode part of a CSV row load: append `row[i+5]` to mode
channel `i` when the row is long enough. -/
def mechLoad (row : List ℝ) (nModes i : ℕ) : List (List ℝ) → List (List ℝ)
  | [] => []
  | ch :: rest =>
      (if i < nModes then
        (if i + 5 < row.length then ch ++ [row.getD (i + 5) 0] else ch)
       else ch) :: mechLoad row nModes (i + 1) rest

/-- Consume one CSV row in `load_data`: append `row[0..4]` to the five
tabular channels and distribute the mode columns. -/
def csvConsume (nModes : ℕ) (h : HistoryData) (row : List ℝ) : HistoryData :=
  { h with
    time := h.time ++ [row.getD 0 0],
    vc_mag := h.vc_mag ++ [row.getD 1 0],
    vc_phase := h.vc_phase ++ [row.getD 2 0],
    vr_mag := h.vr_mag ++ [row.getD 3 0],
    detuning := h.detuning ++ [row.getD 4 0],
    mech_modes := mechLoad row nModes 0 h.mech_modes }

/-- The CSV reader loop of `load_data`. -/
def load_csv_go (nModes : ℕ) (h : HistoryData) : List (List ℝ) → HistoryData
  | [] => h
  | row :: rest => load_csv_go nModes (csvConsume nModes h row) rest

/-- `load_data` on a CSV file: re-initialise the history store, then
consume every data row. -/
def load_csv (nModes : ℕ) (rows : List (List ℝ)) : HistoryData :=
  load_csv_go nModes (initHistory nModes) rows

/-- JSON values as written by `json.dump` and reproduced by `json.load`
(numbers, booleans, strings, arrays, objects). -/
inductive Jval
  | num (x : ℝ)
  | bool (b : Bool)
  | str (s : String)
  | arr (xs : List Jval)
  | obj (fs : List (String × Jval))

/-- Encode a list of reals as a JSON array of numbers. -/
def encNums (l : List ℝ) : Jval := .arr (l.map .num)

/-- Encode a list of booleans as a JSON array of booleans. -/
def encBools (l : List Bool) : Jval := .arr (l.map .bool)

/-- The `data` object written by the JSON branch of `save_data`: the
history dict with its channel lists, nested mode channels, and the
control-parameter sub-dict. -/
def encodeHistory (h : HistoryData) : Jval :=
  .obj [("time", encNums h.time),
        ("vc_real", encNums h.vc_real), ("vc_imag", encNums h.vc_imag),
        ("vc_mag", encNums h.vc_mag), ("vc_phase", encNums h.vc_phase),
        ("vr_real", encNums h.vr_real), ("vr_imag", encNums h.vr_imag),
        ("vr_mag", encNums h.vr_mag), ("vr_phase", encNums h.vr_phase),
        ("detuning", encNums h.detuning),
        ("mech_modes", .arr (h.mech_modes.map encNums)),
        ("control_params",
          .obj [("amp", encNums h.cp_amp), ("phase", encNums h.cp_phase),
                ("fsrc", encNums h.cp_fsrc), ("pulsed", encBools h.cp_pulsed)])]

/-- `save_data` on a JSON file: a top-level object holding a metadata
block and the history data. -/
def save_json (metadata : Jval) (h : HistoryData) : Jval :=
  .obj [("metadata", metadata), ("data", encodeHistory h)]

/-- Dictionary key lookup. -/
def jfind : List (String × Jval) → String → Option Jval
  | [], _ => none
  | (k, v) :: rest, key => if k = key then some v else jfind rest key

/-- Decode a JSON array of numbers. -/
def decNumList : List Jval → Option (List ℝ)
  | [] => some []
  | .num x :: rest => (decNumList rest).map (fun l => x :: l)
  | _ => none

/-- Decode a JSON value expected to be an array of numbers. -/
def decNums : Jval → Option (List ℝ)
  | .arr xs => decNumList xs
  | _ => none

/-- Decode a JSON array of booleans. -/
def decBoolList : List Jval → Option (List Bool)
  | [] => some []
  | .bool b :: rest => (decBoolList rest).map (fun l => b :: l)
  | _ => none

/-- Decode a JSON value expected to be an array of booleans. -/
def decBools : Jval → Option (List Bool)
  | .arr xs => decBoolList xs
  | _ => none

/-- Decode a JSON array of number arrays (the mode channels). -/
def decChanList : List Jval → Option (List (List ℝ))
  | [] => some []
  | j :: rest => (decNums j).bind (fun c => (decChanList rest).map (fun l => c :: l))

/-- Decode a JSON value expected to be an array of number arrays. -/
def decChans : Jval → Option (List (List ℝ))
  | .arr xs => decChanList xs
  | _ => none

/-- Decode one named number channel of a JSON object. -/
def decField (fs : List (String × Jval)) (key : String) : Option (List ℝ) :=
  (jfind fs key).bind decNums

/-- Decode the four control-parameter recording channels of the
`control_params` sub-dict. -/
def decodeCP (j : Jval) : Option (List ℝ × List ℝ × List ℝ × List Bool) :=
  match j with
  | .obj cps =>
      (decField cps "amp").bind fun amp =>
      (decField cps "phase").bind fun phase =>
      (decField cps "fsrc").bind fun fsrc =>
      ((jfind cps "pulsed").bind decBools).map fun pulsed =>
        (amp, phase, fsrc, pulsed)
  | _ => none

/-- Rebuild the history store from the `data` object of a loaded JSON
session (`self.history_data = loaded_data[data]`). -/
def decodeHistory (j : Jval) : Option HistoryData :=
  match j with
  | .obj fs =>
      (decField fs "time").bind fun time =>
      (decField fs "vc_real").bind fun vc_real =>
      (decField fs "vc_imag").bind fun vc_imag =>
      (decField fs "vc_mag").bind fun vc_mag =>
      (decField fs "vc_phase").bind fun vc_phase =>
      (decField fs "vr_real").bind fun vr_real =>
      (decField fs "vr_imag").bind fun vr_imag =>
      (decField fs "vr_mag").bind fun vr_mag =>
      (decField fs "vr_phase").bind fun vr_phase =>
      (decField fs "detuning").bind fun detuning =>
      ((jfind fs "mech_modes").bind decChans).bind fun mech =>
      ((jfind fs "control_params").bind decodeCP).map fun cp =>
        { time := time, vc_real := vc_real, vc_imag := vc_imag,
          vc_mag := vc_mag, vc_phase := vc_phase,
          vr_real := vr_real, vr_imag := vr_imag,
          vr_mag := vr_mag, vr_phase := vr_phase,
          detuning := detuning, mech_modes := mech,
          cp_amp := cp.1, cp_phase := cp.2.1,
          cp_fsrc := cp.2.2.1, cp_pulsed := cp.2.2.2 }
  | _ => none

/-- `load_data` on a JSON file: take the `data` entry of the top-level
object and adopt it as the history store. -/
def load_json (j : Jval) : Option HistoryData :=
  match j with
  | .obj fs => (jfind fs "data").bind decodeHistory
  | _ => none

/-- Replace the status flag reported by an integrator, leaving all the
numeric outputs unchanged: used to compare driver behaviour on a
succeeding versus a failing integrator. -/
def statusOverride (f : ScavStep) (b : Bool) : ScavStep :=
  fun half_bw dw0 det vf vb svc Ts beta sm =>
    { f half_bw dw0 det vf vb svc Ts beta sm with status := b }

/-- The oscillator phase after `n` successive `sim_rfsrc` calls, each
feeding the returned accumulator back in. -/
noncomputable def srcPhaseIter (fsrc Asrc Ts p : ℝ) : ℕ → ℝ
  | 0 => p
  | n + 1 => (sim_rfsrc fsrc Asrc (srcPhaseIter fsrc Asrc Ts p n) Ts).2

/-- The modulator the specification describes: multiply by
`baseband_buffer[clamp(buffer_index, 0, len-1)]` when pulsed, clamping an
out-of-range index on either side into the valid range. -/
def modulate_clamped (sig : ℂ) (pulsed : Bool) (buffer : List ℂ)
    (cw : ℂ) (i : ℤ) : ℂ :=
  if pulsed then
    sig * buffer.getD (min (max i 0) ((buffer.length : ℤ) - 1)).toNat 0
  else sig * cw

/-- The sample channels and the per-mode channels all have the length of
the time channel, and the mode channel list has one entry per mechanical
mode. -/
def mainMechGood (nModes : ℕ) (h : HistoryData) : Prop :=
  h.vc_real.length = h.time.length ∧ h.vc_imag.length = h.time.length ∧
  h.vc_mag.length = h.time.length ∧ h.vc_phase.length = h.time.length ∧
  h.vr_real.length = h.time.length ∧ h.vr_imag.length = h.time.length ∧
  h.vr_mag.length = h.time.length ∧ h.vr_phase.length = h.time.length ∧
  h.detuning.length = h.time.length ∧
  h.mech_modes.map List.length = List.replicate nModes h.time.length

/-- The four control-parameter channels are mutually equal in length and
no longer than the time channel. -/
def cpGood (h : HistoryData) : Prop :=
  h.cp_phase.length = h.cp_amp.length ∧ h.cp_fsrc.length = h.cp_amp.length ∧
  h.cp_pulsed.length = h.cp_amp.length ∧ h.cp_amp.length ≤ h.time.length

/-- The claim as stated: over every event sequence the store stays within
capacity, the sample and mode channels are mutually equal in length, and
whenever recording is enabled the control-parameter channels also equal
the sample channels in length. -/
def claimC2Prop : Prop :=
  ∀ (nModes : ℕ) (evs : List HEvent),
    (runEvents nModes evs).hist.time.length ≤ max_history ∧
    mainMechGood nModes (runEvents nModes evs).hist ∧
    ((runEvents nModes evs).recording = true →
      (runEvents nModes evs).hist.cp_amp.length =
          (runEvents nModes evs).hist.time.length ∧
      (runEvents nModes evs).hist.cp_phase.length =
          (runEvents nModes evs).hist.time.length ∧
      (runEvents nModes evs).hist.cp_fsrc.length =
          (runEvents nModes evs).hist.time.length ∧
      (runEvents nModes evs).hist.cp_pulsed.length =
          (runEvents nModes evs).hist.time.length)

/-- Well-formedness of a store as the CSV writer relies on it: the four
saved scalar channels and every mode channel match the time channel in
length. -/
def wfHistory (nModes : ℕ) (h : HistoryData) : Prop :=
  h.vc_mag.length = h.time.length ∧ h.vc_phase.length = h.time.length ∧
  h.vr_mag.length = h.time.length ∧ h.detuning.length = h.time.length ∧
  h.mech_modes.length = nModes ∧
  ∀ j, j < nModes → (h.mech_modes.getD j []).length = h.time.length

/-- Default control parameters used by concrete test fixtures. -/
noncomputable def cp0 : ControlParams :=
  { amp := 1, phase := 0, fsrc := 0, pulsed := true, ib := 0, gain_dB := 0 }

/-- A trivial concrete integrator used by concrete test fixtures. -/
noncomputable def integ0 : ScavStep :=
  fun _ _ _ _ _ _ _ _ _ => { status := true, vc := 0, vr := 0, dw := 0, state_m := [] }

/-- A small concrete simulator configuration. -/
noncomputable def cfg0 : SimConfig :=
  { Ts := 1, wh := 1, RL := 1, beta := 1, t_fill := 0, t_flat := 0, pul_len := 3,
    base_pul := [1, 0], base_cw := 1, beam_cw := 0, stateDim := 1, nModes := 1,
    integ := integ0 }

/-- A concrete initial simulator state for the configuration `cfg0`. -/
noncomputable def st0 : SimState :=
  { state_m := [0], state_vc := 0, pha_src := 0, buf_id := 0, dw := 0,
    beam_pul := [0], history := initHistory 1, recording := false,
    simulation_running := true, control_params := cp0 }

/-- A zero noise stream. -/
noncomputable def nu0 : ℕ → ℝ := fun _ => 0

/-- A store filled to capacity on the time channel. -/
noncomputable def hCap : HistoryData :=
  { initHistory 1 with time := List.replicate max_history 0 }

/-- A one-row well-formed store whose `vc_real` channel is non-trivial. -/
noncomputable def h0 : HistoryData :=
  { time := [1], vc_real := [5], vc_imag := [0], vc_mag := [5], vc_phase := [0],
    vr_real := [0], vr_imag := [0], vr_mag := [0], vr_phase := [0], detuning := [0],
    mech_modes := [[0]], cp_amp := [], cp_phase := [], cp_fsrc := [], cp_pulsed := [] }

/-- A one-row well-formed store used as a round-trip witness. -/
noncomputable def h1 : HistoryData :=
  { time := [2], vc_real := [0], vc_imag := [0], vc_mag := [3], vc_phase := [4],
    vr_real := [0], vr_imag := [0], vr_mag := [6], vr_phase := [0], detuning := [7],
    mech_modes := [[8]], cp_amp := [], cp_phase := [], cp_fsrc := [], cp_pulsed := [] }

/-- C9: the source oscillator returns the pair
`(amplitude * exp(i * new_phase), new_phase)` with
`new_phase = prior_phase + 2*pi*freq_offset*dt`, the returned sample is
the amplitude rotated by the returned (new) phase, and across iterated
calls the phase is monotonically accumulated:
after `n` steps it is `prior + n * 2*pi*freq_offset*dt`. -/
theorem c9_rf_source (fsrc Asrc pha_src Ts : ℝ) :
    sim_rfsrc fsrc Asrc pha_src Ts =
      ((Asrc : ℂ) *
         Complex.exp (Complex.I * ((pha_src + 2 * Real.pi * fsrc * Ts : ℝ) : ℂ)),
       pha_src + 2 * Real.pi * fsrc * Ts) ∧
    (sim_rfsrc fsrc Asrc pha_src Ts).1 =
      (Asrc : ℂ) *
        Complex.exp (Complex.I * (((sim_rfsrc fsrc Asrc pha_src Ts).2 : ℝ) : ℂ)) ∧
    ∀ n : ℕ, srcPhaseIter fsrc Asrc Ts pha_src n =
      pha_src + n * (2 * Real.pi * fsrc * Ts) := by
  refine ⟨rfl, rfl, ?_⟩
  intro n
  induction n with
  | zero => simp [srcPhaseIter]
  | succ n ih =>
      simp only [srcPhaseIter, sim_rfsrc, ih]
      push_cast
      ring

/-- C8: reset forces the Stopped state, zeroes every cavity-state field
(complex voltage, mechanical state vector, detuning, oscillator phase
accumulator, pulse buffer index), clears every channel of the history
store, and leaves the control parameters (and the beam profile)
unchanged. -/
theorem c8_reset_frame (cfg : SimConfig) (s : SimState) :
    (reset_simulation cfg s).simulation_running = false ∧
    (reset_simulation cfg s).state_vc = 0 ∧
    (reset_simulation cfg s).state_m = List.replicate cfg.stateDim 0 ∧
    (reset_simulation cfg s).dw = 0 ∧
    (reset_simulation cfg s).pha_src = 0 ∧
    (reset_simulation cfg s).buf_id = 0 ∧
    (reset_simulation cfg s).history.time = [] ∧
    (reset_simulation cfg s).history.vc_real = [] ∧
    (reset_simulation cfg s).history.vc_imag = [] ∧
    (reset_simulation cfg s).history.vc_mag = [] ∧
    (reset_simulation cfg s).history.vc_phase = [] ∧
    (reset_simulation cfg s).history.vr_real = [] ∧
    (reset_simulation cfg s).history.vr_imag = [] ∧
    (reset_simulation cfg s).history.vr_mag = [] ∧
    (reset_simulation cfg s).history.vr_phase = [] ∧
    (reset_simulation cfg s).history.detuning = [] ∧
    (reset_simulation cfg s).history.mech_modes =
      s.history.mech_modes.map (fun _ => []) ∧
    (reset_simulation cfg s).history.cp_amp = [] ∧
    (reset_simulation cfg s).history.cp_phase = [] ∧
    (reset_simulation cfg s).history.cp_fsrc = [] ∧
    (reset_simulation cfg s).history.cp_pulsed = [] ∧
    (reset_simulation cfg s).control_params = s.control_params ∧
    (reset_simulation cfg s).beam_pul = s.beam_pul :=
  ⟨rfl, rfl, rfl, rfl, rfl, rfl, rfl, rfl, rfl, rfl, rfl, rfl, rfl, rfl, rfl,
   rfl, rfl, rfl, rfl, rfl, rfl, rfl, rfl⟩

/-- C1 (documenting the defect): the result of a driver step is
completely independent of the status flag the cavity integrator reports.
In particular a step under an always-failing integrator produces exactly
the same outputs and successor state as under a succeeding one: the
driver neither stops nor surfaces the failure, it silently continues with
the numeric outputs of the integrator. -/
theorem c1_integrator_status_ignored (cfg : SimConfig) (s : SimState)
    (noise : ℝ) (b1 b2 : Bool) :
    simulation_step { cfg with integ := statusOverride cfg.integ b1 } s noise =
    simulation_step { cfg with integ := statusOverride cfg.integ b2 } s noise := rfl

/-- C10: two driver steps from identical state and noise whose control
parameters differ only in the phase parameter produce identical outputs
(cavity voltage, reflected voltage, detuning) and identical successor
states apart from that stored phase parameter itself. -/
theorem c10_phase_noninterference (cfg : SimConfig) (s : SimState)
    (noise : ℝ) (p1 p2 : ℝ) :
    (simulation_step cfg
        { s with control_params := { s.control_params with phase := p1 } } noise).1 =
    (simulation_step cfg
        { s with control_params := { s.control_params with phase := p2 } } noise).1 ∧
    (simulation_step cfg
        { s with control_params := { s.control_params with phase := p1 } } noise).2 =
    { (simulation_step cfg
        { s with control_params := { s.control_params with phase := p2 } } noise).2
      with control_params := { s.control_params with phase := p1 } } :=
  ⟨rfl, rfl⟩

/-- C5: a scan request with `min_val >= max_val` is rejected with an
error before any stepping: zero driver steps run, and the state
(control parameters, cavity state and history store) is returned
untouched. -/
theorem c5_invalid_scan_range (cfg : SimConfig) (param : ScanParam)
    (min_val max_val : ℝ) (ν : ℕ → ℝ) (s : SimState)
    (h : min_val ≥ max_val) :
    start_parameter_scan cfg param min_val max_val ν s =
      (Except.error (), s, 0) := by
  simp [start_parameter_scan, h]

/-- Witness for C5 at the boundary input `min_val = max_val = 0`. -/
theorem c5_invalid_scan_range_witness :
    (0 : ℝ) ≥ 0 ∧
    start_parameter_scan cfg0 ScanParam.amp 0 0 nu0 st0 =
      (Except.error (), st0, 0) :=
  ⟨le_refl 0, c5_invalid_scan_range cfg0 ScanParam.amp 0 0 nu0 st0 (le_refl 0)⟩

/-- On a non-negative index into a non-empty buffer, the Python index
expression of the modulator behaves as a clamp to the last element. -/
theorem pySelect_nat_clamp (xs : List ℂ) (hx : xs ≠ []) (i : ℕ) :
    pySelect xs (i : ℤ) = some (xs.getD (min i (xs.length - 1)) 0) := by
  have hpos : 0 < xs.length := List.length_pos.mpr hx
  by_cases hlt : i < xs.length
  · have hc : ((i : ℤ) < (xs.length : ℤ)) := by exact_mod_cast hlt
    rw [pySelect, if_pos hc, pyIdx, if_pos (Int.ofNat_nonneg i)]
    have ht : ((i : ℤ)).toNat = i := Int.toNat_ofNat i
    rw [ht, min_eq_left (by omega : i ≤ xs.length - 1)]
    rw [List.get?_eq_getElem?, List.getElem?_eq_getElem hlt,
        List.getD_eq_getElem xs 0 hlt]
  · have hge : xs.length ≤ i := Nat.le_of_not_lt hlt
    have hc : ¬ ((i : ℤ) < (xs.length : ℤ)) := by exact_mod_cast hlt
    rw [pySelect, if_neg hc, pyIdx]
    have h1 : ¬ (0 : ℤ) ≤ -1 := by norm_num
    rw [if_neg h1]
    have h2 : ((-(-1 : ℤ))).toNat = 1 := by norm_num
    rw [h2, if_pos (by omega : 1 ≤ xs.length)]
    have hsub : xs.length - 1 < xs.length := Nat.sub_lt hpos Nat.one_pos
    rw [min_eq_right (le_trans (Nat.sub_le _ _) hge)]
    rw [List.get?_eq_getElem?, List.getElem?_eq_getElem hsub,
        List.getD_eq_getElem xs 0 hsub]

/-- C7 (amended): for every non-negative buffer index — the only indices
the driver produces — the pulsed modulator multiplies by
`baseband_buffer[min(index, len-1)]`, so indices at or above the length
clamp to the last element without erroring, and the continuous-wave
branch multiplies by the scalar gate value. -/
theorem c7_modulator_clamp (sig : ℂ) (buffer : List ℂ) (cw : ℂ) (i : ℕ)
    (hb : buffer ≠ []) :
    sim_iqmod sig true buffer cw (i : ℤ) =
      some (sig * buffer.getD (min i (buffer.length - 1)) 0) ∧
    sim_iqmod sig false buffer cw (i : ℤ) = some (sig * cw) := by
  constructor
  · simp [sim_iqmod, pySelect_nat_clamp buffer hb i]
  · rfl

/-- Witness for C7 at a concrete buffer and an index one past its end. -/
theorem c7_modulator_clamp_witness :
    ([1, 0] : List ℂ) ≠ [] ∧
    sim_iqmod 1 true [1, 0] 1 ((2 : ℕ) : ℤ) =
      some (1 * ([1, 0] : List ℂ).getD (min 2 (([1, 0] : List ℂ).length - 1)) 0) :=
  ⟨by simp, (c7_modulator_clamp 1 [1, 0] 1 2 (by simp)).1⟩

/-- Counterexample to C7 as stated: at the negative index `-1` the code
follows the Python index-from-the-end semantics and selects the LAST
element, while the claimed clamp into `[0, len-1]` selects the FIRST;
on the buffer `[1, 0]` the two results differ. -/
theorem c7_counterexample :
    sim_iqmod 1 true [1, 0] 1 (-1) = some 0 ∧
    modulate_clamped 1 true [1, 0] 1 (-1) = 1 ∧
    sim_iqmod 1 true [1, 0] 1 (-1) ≠
      some (modulate_clamped 1 true [1, 0] 1 (-1)) := by
  refine ⟨?_, ?_, ?_⟩
  · norm_num [sim_iqmod, pySelect, pyIdx]
  · norm_num [modulate_clamped]
  · norm_num [sim_iqmod, pySelect, pyIdx, modulate_clamped]

/-- C6: in pulsed mode a driver step advances the pulse buffer index by
one modulo the pulse period, so it stays in `[0, pul_len)`; feeding the
advanced index to the modulator never raises an index error even when it
lies past the length of the envelope buffer; in continuous-wave mode the index
is not advanced. -/
theorem c6_pulse_buffer_wrap (cfg : SimConfig) (s : SimState) (noise : ℝ)
    (hlt : s.buf_id < cfg.pul_len) (hb : cfg.base_pul ≠ []) :
    ((simulation_step cfg s noise).2.buf_id =
       if s.control_params.pulsed then (s.buf_id + 1) % cfg.pul_len
       else s.buf_id) ∧
    (simulation_step cfg s noise).2.buf_id < cfg.pul_len ∧
    ∀ sig : ℂ,
      (sim_iqmod sig s.control_params.pulsed cfg.base_pul cfg.base_cw
        (((simulation_step cfg s noise).2.buf_id : ℕ) : ℤ)).isSome = true := by
  have h0 : 0 < cfg.pul_len := lt_of_le_of_lt (Nat.zero_le _) hlt
  have hstep : (simulation_step cfg s noise).2.buf_id =
      if s.control_params.pulsed then
        (if s.buf_id + 1 ≥ cfg.pul_len then 0 else s.buf_id + 1)
      else s.buf_id := rfl
  have hwrap : (if s.control_params.pulsed then
        (if s.buf_id + 1 ≥ cfg.pul_len then 0 else s.buf_id + 1)
      else s.buf_id) =
      if s.control_params.pulsed then (s.buf_id + 1) % cfg.pul_len
      else s.buf_id := by
    cases hp : s.control_params.pulsed
    · simp
    · simp only [if_true]
      by_cases hge : s.buf_id + 1 ≥ cfg.pul_len
      · have heq : s.buf_id + 1 = cfg.pul_len := by omega
        rw [if_pos hge, heq, Nat.mod_self]
      · rw [if_neg hge, Nat.mod_eq_of_lt (by omega)]
  have hmain : (simulation_step cfg s noise).2.buf_id =
      if s.control_params.pulsed then (s.buf_id + 1) % cfg.pul_len
      else s.buf_id := hstep.trans hwrap
  have hbound : (simulation_step cfg s noise).2.buf_id < cfg.pul_len := by
    rw [hmain]
    cases s.control_params.pulsed
    · simpa using hlt
    · simpa using Nat.mod_lt _ h0
  refine ⟨hmain, hbound, ?_⟩
  intro sig
  cases hp : s.control_params.pulsed
  · simp [sim_iqmod]
  · simp [sim_iqmod,
      pySelect_nat_clamp cfg.base_pul hb ((simulation_step cfg s noise).2.buf_id)]

/-- Witness for C6: the concrete configuration with pulse period 3 and a
two-element envelope buffer, starting at index 0 in pulsed mode. -/
theorem c6_pulse_buffer_wrap_witness :
    st0.buf_id < cfg0.pul_len ∧ cfg0.base_pul ≠ [] ∧
    ((simulation_step cfg0 st0 0).2.buf_id =
       if st0.control_params.pulsed then (st0.buf_id + 1) % cfg0.pul_len
       else st0.buf_id) ∧
    (simulation_step cfg0 st0 0).2.buf_id < cfg0.pul_len := by
  have h1 : st0.buf_id < cfg0.pul_len := by simp [st0, cfg0]
  have h2 : cfg0.base_pul ≠ [] := by simp [cfg0]
  exact ⟨h1, h2, (c6_pulse_buffer_wrap cfg0 st0 0 h1 h2).1,
    (c6_pulse_buffer_wrap cfg0 st0 0 h1 h2).2.1⟩

/-- A driver step never writes the control parameters. -/
theorem simulation_step_cp (cfg : SimConfig) (s : SimState) (noise : ℝ) :
    (simulation_step cfg s noise).2.control_params = s.control_params := rfl

/-- The settling loop never writes the control parameters. -/
theorem runSteps_cp (cfg : SimConfig) (ν : ℕ → ℝ) :
    ∀ (n k : ℕ) (s : SimState),
      (runSteps cfg ν n k s).2.control_params = s.control_params := by
  intro n
  induction n with
  | zero => intro k s; rfl
  | succ n ih =>
      intro k s
      show (if n = 0 then simulation_step cfg s (ν k)
            else runSteps cfg ν n (k + 1) (simulation_step cfg s (ν k)).2).2.control_params
          = s.control_params
      by_cases hn : n = 0
      · rw [if_pos hn]; rfl
      · rw [if_neg hn, ih]; rfl

/-- The recorded parameter values of a sweep are the setpoints, in
order. -/
theorem scanGo_fst (cfg : SimConfig) (param : ScanParam) (ν : ℕ → ℝ) :
    ∀ (pts : List ℝ) (k : ℕ) (s : SimState),
      (scanGo cfg param ν pts k s).1.map Prod.fst = pts := by
  intro pts
  induction pts with
  | nil => intro k s; rfl
  | cons v rest ih => intro k s; simp only [scanGo, List.map_cons, ih]

/-- A sweep records one point per setpoint. -/
theorem scanGo_len (cfg : SimConfig) (param : ScanParam) (ν : ℕ → ℝ)
    (pts : List ℝ) (k : ℕ) (s : SimState) :
    (scanGo cfg param ν pts k s).1.length = pts.length := by
  calc (scanGo cfg param ν pts k s).1.length
      = ((scanGo cfg param ν pts k s).1.map Prod.fst).length :=
        (List.length_map _ _).symm
    _ = pts.length := by rw [scanGo_fst]

/-- A sweep performs exactly 100 driver steps per setpoint. -/
theorem scanGo_count (cfg : SimConfig) (param : ScanParam) (ν : ℕ → ℝ) :
    ∀ (pts : List ℝ) (k : ℕ) (s : SimState),
      (scanGo cfg param ν pts k s).2.2 = k + 100 * pts.length := by
  intro pts
  induction pts with
  | nil => intro k s; simp [scanGo]
  | cons v rest ih =>
      intro k s
      show (scanGo cfg param ν rest (k + 100) _).2.2 = k + 100 * (v :: rest).length
      rw [ih]
      simp [Nat.mul_succ]
      omega

/-- After a sweep the control parameters are the fold of the setpoint
writes. -/
theorem scanGo_cp (cfg : SimConfig) (param : ScanParam) (ν : ℕ → ℝ) :
    ∀ (pts : List ℝ) (k : ℕ) (s : SimState),
      (scanGo cfg param ν pts k s).2.1.control_params =
        pts.foldl (fun c v => setParam c param v) s.control_params := by
  intro pts
  induction pts with
  | nil => intro k s; rfl
  | cons v rest ih =>
      intro k s
      show (scanGo cfg param ν rest (k + 100) _).2.1.control_params = _
      rw [ih, runSteps_cp]
      rfl

/-- Overwriting the same parameter twice keeps only the second write. -/
theorem setParam_setParam (c : ControlParams) (p : ScanParam) (v w : ℝ) :
    setParam (setParam c p v) p w = setParam c p w := by
  cases p <;> rfl

/-- Writing back the value just read is the identity. -/
theorem setParam_getParam (c : ControlParams) (p : ScanParam) :
    setParam c p (getParam c p) = c := by
  cases p <;> rfl

/-- Restoring the pre-sweep value after any non-empty sequence of writes
to the same parameter recovers the original parameters. -/
theorem restore_foldl (p : ScanParam) :
    ∀ (l : List ℝ) (c : ControlParams) (v : ℝ),
      setParam (l.foldl (fun cp x => setParam cp p x) (setParam c p v)) p
        (getParam c p) = c := by
  intro l
  induction l with
  | nil =>
      intro c v
      simp only [List.foldl_nil, setParam_setParam, setParam_getParam]
  | cons x rest ih =>
      intro c v
      rw [List.foldl_cons, setParam_setParam]
      exact ih c x

/-- Restoring after a sweep over any setpoint list recovers the original
parameters. -/
theorem restore_after_sweep (p : ScanParam) (l : List ℝ) (c : ControlParams) :
    setParam (l.foldl (fun cp x => setParam cp p x) c) p (getParam c p) = c := by
  cases l with
  | nil => exact setParam_getParam c p
  | cons v rest => rw [List.foldl_cons]; exact restore_foldl p rest c v

/-- Value of `np.linspace(a, b, n)` at index `i`. -/
theorem linspace_getD (a b : ℝ) (n i : ℕ) (hi : i < n) :
    (linspace a b n).getD i 0 = a + (b - a) * i / ((n : ℝ) - 1) := by
  have hlen : i <
      ((List.range n).map
        (fun j : ℕ => a + (b - a) * (j : ℝ) / ((n : ℝ) - 1))).length := by
    simpa using hi
  rw [linspace, List.getD_eq_getElem _ _ hlen, List.getElem_map, List.getElem_range]

/-- The recorded points of a scan are those of the sweep itself. -/
theorem parameter_scan_res (cfg : SimConfig) (param : ScanParam) (a b : ℝ)
    (ν : ℕ → ℝ) (s : SimState) :
    (parameter_scan cfg param a b ν s).1 =
      (scanGo cfg param ν (linspace a b 20) 0 s).1 := by
  unfold parameter_scan
  generalize scanGo cfg param ν (linspace a b 20) 0 s = r
  obtain ⟨res, s2, k⟩ := r
  rfl

/-- The step count of a scan is that of the sweep itself. -/
theorem parameter_scan_count (cfg : SimConfig) (param : ScanParam) (a b : ℝ)
    (ν : ℕ → ℝ) (s : SimState) :
    (parameter_scan cfg param a b ν s).2.2 =
      (scanGo cfg param ν (linspace a b 20) 0 s).2.2 := by
  unfold parameter_scan
  generalize scanGo cfg param ν (linspace a b 20) 0 s = r
  obtain ⟨res, s2, k⟩ := r
  rfl

/-- The control parameters after a scan are those after the sweep with
the swept entry overwritten by its pre-scan value. -/
theorem parameter_scan_cp (cfg : SimConfig) (param : ScanParam) (a b : ℝ)
    (ν : ℕ → ℝ) (s : SimState) :
    (parameter_scan cfg param a b ν s).2.1.control_params =
      setParam (scanGo cfg param ν (linspace a b 20) 0 s).2.1.control_params
        param (getParam s.control_params param) := by
  unfold parameter_scan
  generalize scanGo cfg param ν (linspace a b 20) 0 s = r
  obtain ⟨res, s2, k⟩ := r
  rfl

/-- C4: for `min_val < max_val` a scan produces exactly 20
`(parameter_value, response)` points whose parameter values are the 20
evenly spaced setpoints from `min_val` to `max_val` inclusive (spacing
`(max_val-min_val)/19`), performs 100 settling driver steps per setpoint
(2000 in total) sampling the cavity-voltage magnitude after each settling
window, and afterwards the swept control parameter — indeed the whole
control-parameter record — equals its pre-scan value. -/
theorem c4_parameter_scan (cfg : SimConfig) (param : ScanParam) (a b : ℝ)
    (ν : ℕ → ℝ) (s : SimState) (hab : a < b) :
    (parameter_scan cfg param a b ν s).1.length = 20 ∧
    (parameter_scan cfg param a b ν s).1.map Prod.fst = linspace a b 20 ∧
    ((parameter_scan cfg param a b ν s).1.map Prod.fst).getD 0 0 = a ∧
    ((parameter_scan cfg param a b ν s).1.map Prod.fst).getD 19 0 = b ∧
    (∀ i : ℕ, i + 1 < 20 →
      ((parameter_scan cfg param a b ν s).1.map Prod.fst).getD (i + 1) 0 -
        ((parameter_scan cfg param a b ν s).1.map Prod.fst).getD i 0 =
        (b - a) / 19) ∧
    (parameter_scan cfg param a b ν s).2.2 = 2000 ∧
    (parameter_scan cfg param a b ν s).2.1.control_params = s.control_params ∧
    (∀ (v : ℝ) (rest : List ℝ) (k : ℕ) (s0 : SimState),
      (scanGo cfg param ν (v :: rest) k s0).1.head? =
        some (v, Complex.abs (runSteps cfg ν 100 k
          { s0 with control_params := setParam s0.control_params param v }).1.1
            * (1 / 1000000))) := by
  have hl : (linspace a b 20).length = 20 := by simp [linspace]
  have hfst : (parameter_scan cfg param a b ν s).1.map Prod.fst =
      linspace a b 20 := by
    rw [parameter_scan_res]
    exact scanGo_fst cfg param ν (linspace a b 20) 0 s
  have hcast : ((20 : ℕ) : ℝ) - 1 = 19 := by norm_num
  refine ⟨?_, hfst, ?_, ?_, ?_, ?_, ?_, ?_⟩
  · rw [parameter_scan_res, scanGo_len, hl]
  · rw [hfst, linspace_getD a b 20 0 (by norm_num), hcast]
    simp
  · rw [hfst, linspace_getD a b 20 19 (by norm_num), hcast]
    field_simp
  · intro i hi
    rw [hfst, linspace_getD a b 20 (i + 1) hi,
        linspace_getD a b 20 i (by omega), hcast]
    push_cast
    ring
  · rw [parameter_scan_count, scanGo_count, hl]
  · rw [parameter_scan_cp, scanGo_cp]
    exact restore_after_sweep param (linspace a b 20) s.control_params
  · intro v rest k s0
    rfl

/-- Witness for C4 at the concrete range `[0, 1]`. -/
theorem c4_parameter_scan_witness :
    (0 : ℝ) < 1 ∧
    (parameter_scan cfg0 ScanParam.amp 0 1 nu0 st0).1.length = 20 ∧
    (parameter_scan cfg0 ScanParam.amp 0 1 nu0 st0).2.2 = 2000 ∧
    (parameter_scan cfg0 ScanParam.amp 0 1 nu0 st0).2.1.control_params =
      st0.control_params :=
  ⟨by norm_num,
   (c4_parameter_scan cfg0 ScanParam.amp 0 1 nu0 st0 (by norm_num)).1,
   (c4_parameter_scan cfg0 ScanParam.amp 0 1 nu0 st0 (by norm_num)).2.2.2.2.2.1,
   (c4_parameter_scan cfg0 ScanParam.amp 0 1 nu0 st0 (by norm_num)).2.2.2.2.2.2.1⟩

/-- Channel-by-channel description of one `store_data` call: writing to
the store first evicts (when the time channel is at capacity), then
appends the sample to every sample and mode channel, and appends the
four control-parameter snapshots exactly when recording. -/
theorem store_data_channels (nModes : ℕ) (rec : Bool) (cp : ControlParams)
    (sm : List ℂ) (t : ℝ) (vc vr : ℂ) (dw : ℝ) (h : HistoryData) :
    (store_data nModes rec cp sm t vc vr dw h).1.time =
      (if h.time.length ≥ max_history then evict h else h).time ++ [t] ∧
    (store_data nModes rec cp sm t vc vr dw h).1.vc_real =
      (if h.time.length ≥ max_history then evict h else h).vc_real ++ [vc.re] ∧
    (store_data nModes rec cp sm t vc vr dw h).1.vc_imag =
      (if h.time.length ≥ max_history then evict h else h).vc_imag ++ [vc.im] ∧
    (store_data nModes rec cp sm t vc vr dw h).1.vc_mag =
      (if h.time.length ≥ max_history then evict h else h).vc_mag ++
        [Complex.abs vc] ∧
    (store_data nModes rec cp sm t vc vr dw h).1.vc_phase =
      (if h.time.length ≥ max_history then evict h else h).vc_phase ++
        [Complex.arg vc * 180 / Real.pi] ∧
    (store_data nModes rec cp sm t vc vr dw h).1.vr_real =
      (if h.time.length ≥ max_history then evict h else h).vr_real ++ [vr.re] ∧
    (store_data nModes rec cp sm t vc vr dw h).1.vr_imag =
      (if h.time.length ≥ max_history then evict h else h).vr_imag ++ [vr.im] ∧
    (store_data nModes rec cp sm t vc vr dw h).1.vr_mag =
      (if h.time.length ≥ max_history then evict h else h).vr_mag ++
        [Complex.abs vr] ∧
    (store_data nModes rec cp sm t vc vr dw h).1.vr_phase =
      (if h.time.length ≥ max_history then evict h else h).vr_phase ++
        [Complex.arg vr * 180 / Real.pi] ∧
    (store_data nModes rec cp sm t vc vr dw h).1.detuning =
      (if h.time.length ≥ max_history then evict h else h).detuning ++
        [dw / (2 * Real.pi)] ∧
    (store_data nModes rec cp sm t vc vr dw h).1.mech_modes =
      mechAppend sm nModes 0
        (if h.time.length ≥ max_history then evict h else h).mech_modes ∧
    (store_data nModes rec cp sm t vc vr dw h).1.cp_amp =
      (if rec then
        (if h.time.length ≥ max_history then evict h else h).cp_amp ++ [cp.amp]
       else (if h.time.length ≥ max_history then evict h else h).cp_amp) ∧
    (store_data nModes rec cp sm t vc vr dw h).1.cp_phase =
      (if rec then
        (if h.time.length ≥ max_history then evict h else h).cp_phase ++ [cp.phase]
       else (if h.time.length ≥ max_history then evict h else h).cp_phase) ∧
    (store_data nModes rec cp sm t vc vr dw h).1.cp_fsrc =
      (if rec then
        (if h.time.length ≥ max_history then evict h else h).cp_fsrc ++ [cp.fsrc]
       else (if h.time.length ≥ max_history then evict h else h).cp_fsrc) ∧
    (store_data nModes rec cp sm t vc vr dw h).1.cp_pulsed =
      (if rec then
        (if h.time.length ≥ max_history then evict h else h).cp_pulsed ++ [cp.pulsed]
       else (if h.time.length ≥ max_history then evict h else h).cp_pulsed) := by
  unfold store_data
  generalize (if h.time.length ≥ max_history then evict h else h) = hp
  cases rec
  · exact ⟨rfl, rfl, rfl, rfl, rfl, rfl, rfl, rfl, rfl, rfl, rfl, rfl, rfl, rfl, rfl⟩
  · exact ⟨rfl, rfl, rfl, rfl, rfl, rfl, rfl, rfl, rfl, rfl, rfl, rfl, rfl, rfl, rfl⟩

/-- Eviction keeps the sample and mode channels mutually equal in
length. -/
theorem evict_mainMechGood (nModes : ℕ) (h : HistoryData)
    (hmm : mainMechGood nModes h) : mainMechGood nModes (evict h) := by
  obtain ⟨h1, h2, h3, h4, h5, h6, h7, h8, h9, hm⟩ := hmm
  refine ⟨?_, ?_, ?_, ?_, ?_, ?_, ?_, ?_, ?_, ?_⟩
  · simp [evict, List.length_tail, h1]
  · simp [evict, List.length_tail, h2]
  · simp [evict, List.length_tail, h3]
  · simp [evict, List.length_tail, h4]
  · simp [evict, List.length_tail, h5]
  · simp [evict, List.length_tail, h6]
  · simp [evict, List.length_tail, h7]
  · simp [evict, List.length_tail, h8]
  · simp [evict, List.length_tail, h9]
  · show (h.mech_modes.map List.tail).map List.length =
      List.replicate nModes (h.time.tail).length
    rw [List.map_map]
    calc h.mech_modes.map (List.length ∘ List.tail)
        = h.mech_modes.map ((fun n => n - 1) ∘ List.length) := by
          refine List.map_congr_left ?_
          intro ch _
          simp [List.length_tail]
      _ = (h.mech_modes.map List.length).map (fun n => n - 1) :=
          (List.map_map _ _ _).symm
      _ = (List.replicate nModes h.time.length).map (fun n => n - 1) := by rw [hm]
      _ = List.replicate nModes (h.time.length - 1) := List.map_replicate
      _ = List.replicate nModes (h.time.tail).length := by rw [List.length_tail]

/-- Eviction keeps the control-parameter channels mutually equal in
length and within the length of the time channel. -/
theorem evict_cpGood (h : HistoryData) (hcp : cpGood h) : cpGood (evict h) := by
  obtain ⟨h1, h2, h3, h4⟩ := hcp
  refine ⟨?_, ?_, ?_, ?_⟩
  · simp [evict, List.length_tail, h1]
  · simp [evict, List.length_tail, h2]
  · simp [evict, List.length_tail, h3]
  · show h.cp_amp.tail.length ≤ h.time.tail.length
    simp only [List.length_tail]
    exact Nat.sub_le_sub_right h4 1

/-- Appending to the first `nModes` channels when there are at most
`nModes` of them increments every channel length. -/
theorem mechAppend_len_map (sm : List ℂ) (nModes : ℕ) :
    ∀ (l : List (List ℝ)) (i : ℕ), i + l.length ≤ nModes →
      (mechAppend sm nModes i l).map List.length =
        l.map (fun ch => ch.length + 1) := by
  intro l
  induction l with
  | nil => intro i _; rfl
  | cons ch rest ih =>
      intro i hle
      simp only [List.length_cons] at hle
      show ((if i < nModes then ch ++ [(sm.getD i 0).re] else ch) ::
          mechAppend sm nModes (i + 1) rest).map List.length = _
      rw [if_pos (by omega), List.map_cons, ih (i + 1) (by omega)]
      simp

/-- One `store_data` call preserves the capacity bound, the mutual
equality of the sample and mode channel lengths, and the control-channel
length facts. -/
theorem store_data_good (nModes : ℕ) (rec : Bool) (cp : ControlParams)
    (sm : List ℂ) (t : ℝ) (vc vr : ℂ) (dw : ℝ) (h : HistoryData)
    (hcap : h.time.length ≤ max_history)
    (hmm : mainMechGood nModes h) (hcp : cpGood h) :
    (store_data nModes rec cp sm t vc vr dw h).1.time.length ≤ max_history ∧
    mainMechGood nModes (store_data nModes rec cp sm t vc vr dw h).1 ∧
    cpGood (store_data nModes rec cp sm t vc vr dw h).1 := by
  obtain ⟨c1, c2, c3, c4, c5, c6, c7, c8, c9, c10, c11, c12, c13, c14, c15⟩ :=
    store_data_channels nModes rec cp sm t vc vr dw h
  set hp : HistoryData := if h.time.length ≥ max_history then evict h else h
    with hhp
  have hmm2 : mainMechGood nModes hp := by
    rw [hhp]
    by_cases hc : h.time.length ≥ max_history
    · rw [if_pos hc]; exact evict_mainMechGood nModes h hmm
    · rw [if_neg hc]; exact hmm
  have hcp2 : cpGood hp := by
    rw [hhp]
    by_cases hc : h.time.length ≥ max_history
    · rw [if_pos hc]; exact evict_cpGood h hcp
    · rw [if_neg hc]; exact hcp
  have hlen2 : hp.time.length + 1 ≤ max_history := by
    rw [hhp]
    by_cases hc : h.time.length ≥ max_history
    · rw [if_pos hc]
      have heq : h.time.length = max_history := le_antisymm hcap hc
      show h.time.tail.length + 1 ≤ max_history
      rw [List.length_tail, heq]
      simp [max_history]
    · rw [if_neg hc]; omega
  obtain ⟨m1, m2, m3, m4, m5, m6, m7, m8, m9, mm⟩ := hmm2
  obtain ⟨p1, p2, p3, p4⟩ := hcp2
  have houter : hp.mech_modes.length = nModes := by
    have hl := congrArg List.length mm
    simpa using hl
  have hmech : (store_data nModes rec cp sm t vc vr dw h).1.mech_modes.map
      List.length = List.replicate nModes
        ((store_data nModes rec cp sm t vc vr dw h).1.time.length) := by
    rw [c11, c1, mechAppend_len_map sm nModes _ 0 (by omega)]
    calc hp.mech_modes.map (fun ch => ch.length + 1)
        = (hp.mech_modes.map List.length).map (fun n => n + 1) :=
          (List.map_map _ _ _).symm
      _ = (List.replicate nModes hp.time.length).map (fun n => n + 1) := by
          rw [mm]
      _ = _ := by simp [List.map_replicate]
  refine ⟨?_, ⟨?_, ?_, ?_, ?_, ?_, ?_, ?_, ?_, ?_, hmech⟩, ?_, ?_, ?_, ?_⟩
  · rw [c1]; simpa using hlen2
  · rw [c2, c1]; simp [m1]
  · rw [c3, c1]; simp [m2]
  · rw [c4, c1]; simp [m3]
  · rw [c5, c1]; simp [m4]
  · rw [c6, c1]; simp [m5]
  · rw [c7, c1]; simp [m6]
  · rw [c8, c1]; simp [m7]
  · rw [c9, c1]; simp [m8]
  · rw [c10, c1]; simp [m9]
  · rw [c13, c12]; cases rec <;> simp [p1]
  · rw [c14, c12]; cases rec <;> simp [p2]
  · rw [c15, c12]; cases rec <;> simp [p3]
  · rw [c12, c1]
    cases rec
    · simp only [Bool.false_eq_true, if_false, List.length_append,
        List.length_singleton]
      omega
    · simp only [if_true, List.length_append, List.length_singleton]
      omega

/-- The freshly initialised store satisfies all length invariants. -/
theorem initHistory_good (nModes : ℕ) :
    (initHistory nModes).time.length ≤ max_history ∧
    mainMechGood nModes (initHistory nModes) ∧ cpGood (initHistory nModes) := by
  refine ⟨by simp [initHistory], ⟨?_, ?_, ?_, ?_, ?_, ?_, ?_, ?_, ?_, ?_⟩,
    ?_, ?_, ?_, ?_⟩ <;> simp [initHistory]

/-- The length invariants are preserved along any event sequence. -/
theorem foldl_events_good (nModes : ℕ) :
    ∀ (evs : List HEvent) (st : RecState),
      st.hist.time.length ≤ max_history → mainMechGood nModes st.hist →
      cpGood st.hist →
      ((evs.foldl (applyEvent nModes) st).hist.time.length ≤ max_history ∧
       mainMechGood nModes (evs.foldl (applyEvent nModes) st).hist ∧
       cpGood (evs.foldl (applyEvent nModes) st).hist) := by
  intro evs
  induction evs with
  | nil => intro st h1 h2 h3; exact ⟨h1, h2, h3⟩
  | cons e rest ih =>
      intro st h1 h2 h3
      rw [List.foldl_cons]
      cases e with
      | store cp sm t vc vr dw =>
          have hs := store_data_good nModes st.recording cp sm t vc vr dw
            st.hist h1 h2 h3
          exact ih _ hs.1 hs.2.1 hs.2.2
      | toggleRec => exact ih _ h1 h2 h3

/-- C2 (amended): over every event sequence the history store length
never exceeds the 10,000-sample capacity; the sample channels and every
per-mode channel always have mutually equal length; the four
control-parameter channels always have mutually equal length, bounded by
the sample-channel length (they can be shorter, because they grow only
while recording); and a store operation at capacity first evicts the
oldest element of every channel before appending. -/
theorem c2_history_invariants :
    (∀ (nModes : ℕ) (evs : List HEvent),
      (runEvents nModes evs).hist.time.length ≤ max_history ∧
      mainMechGood nModes (runEvents nModes evs).hist ∧
      cpGood (runEvents nModes evs).hist) ∧
    (∀ (nModes : ℕ) (rec : Bool) (cp : ControlParams) (sm : List ℂ) (t : ℝ)
       (vc vr : ℂ) (dw : ℝ) (h : HistoryData), h.time.length = max_history →
      (store_data nModes rec cp sm t vc vr dw h).1.time = h.time.tail ++ [t] ∧
      (store_data nModes rec cp sm t vc vr dw h).1.vc_mag =
        h.vc_mag.tail ++ [Complex.abs vc] ∧
      (store_data nModes rec cp sm t vc vr dw h).1.vr_mag =
        h.vr_mag.tail ++ [Complex.abs vr] ∧
      (store_data nModes rec cp sm t vc vr dw h).1.detuning =
        h.detuning.tail ++ [dw / (2 * Real.pi)] ∧
      (store_data nModes rec cp sm t vc vr dw h).1.mech_modes =
        mechAppend sm nModes 0 (h.mech_modes.map List.tail) ∧
      (store_data nModes rec cp sm t vc vr dw h).1.cp_amp =
        (if rec then h.cp_amp.tail ++ [cp.amp] else h.cp_amp.tail) ∧
      (store_data nModes rec cp sm t vc vr dw h).1.cp_pulsed =
        (if rec then h.cp_pulsed.tail ++ [cp.pulsed] else h.cp_pulsed.tail)) := by
  constructor
  · intro nModes evs
    have hinit := initHistory_good nModes
    exact foldl_events_good nModes evs ⟨initHistory nModes, false⟩
      hinit.1 hinit.2.1 hinit.2.2
  · intro nModes rec cp sm t vc vr dw h hcap
    obtain ⟨c1, c2, c3, c4, c5, c6, c7, c8, c9, c10, c11, c12, c13, c14, c15⟩ :=
      store_data_channels nModes rec cp sm t vc vr dw h
    have hge : h.time.length ≥ max_history := le_of_eq hcap.symm
    rw [if_pos hge] at c1 c4 c8 c10 c11 c12 c15
    exact ⟨c1, c4, c8, c10, c11, c12, c15⟩

/-- Witness for the eviction clause of C2 at a store filled to capacity. -/
theorem c2_history_invariants_witness :
    hCap.time.length = max_history ∧
    (store_data 1 false cp0 [] 0 0 0 0 hCap).1.time =
      hCap.time.tail ++ [(0 : ℝ)] := by
  have hcap : hCap.time.length = max_history := by simp [hCap]
  exact ⟨hcap, (c2_history_invariants.2 1 false cp0 [] 0 0 0 0 hCap hcap).1⟩

/-- Counterexample to C2 as stated: store one sample with recording
disabled, then enable recording.  At that observation point recording is
enabled but the control-parameter channels (length 0) are shorter than
the sample channels (length 1). -/
theorem c2_counterexample : ¬ claimC2Prop := by
  intro hcl
  have h := (hcl 0 [HEvent.store cp0 [] 0 0 0 0, HEvent.toggleRec]).2.2
  have hrec : (runEvents 0
      [HEvent.store cp0 [] 0 0 0 0, HEvent.toggleRec]).recording = true := rfl
  have hamp : (runEvents 0
      [HEvent.store cp0 [] 0 0 0 0, HEvent.toggleRec]).hist.cp_amp.length
      = 0 := rfl
  have htime : (runEvents 0
      [HEvent.store cp0 [] 0 0 0 0, HEvent.toggleRec]).hist.time.length
      = 1 := rfl
  have := (h hrec).1
  rw [hamp, htime] at this
  exact absurd this (by norm_num)

/-- A CSV load never writes the channels absent from the tabular
encoding: they keep the (empty) values of the re-initialised store. -/
theorem load_csv_go_untouched (nModes : ℕ) :
    ∀ (rows : List (List ℝ)) (h : HistoryData),
      (load_csv_go nModes h rows).vc_real = h.vc_real ∧
      (load_csv_go nModes h rows).vc_imag = h.vc_imag ∧
      (load_csv_go nModes h rows).vr_real = h.vr_real ∧
      (load_csv_go nModes h rows).vr_imag = h.vr_imag ∧
      (load_csv_go nModes h rows).vr_phase = h.vr_phase ∧
      (load_csv_go nModes h rows).cp_amp = h.cp_amp ∧
      (load_csv_go nModes h rows).cp_phase = h.cp_phase ∧
      (load_csv_go nModes h rows).cp_fsrc = h.cp_fsrc ∧
      (load_csv_go nModes h rows).cp_pulsed = h.cp_pulsed := by
  intro rows
  induction rows with
  | nil =>
      intro h
      exact ⟨rfl, rfl, rfl, rfl, rfl, rfl, rfl, rfl, rfl⟩
  | cons row rest ih =>
      intro h
      exact ih (csvConsume nModes h row)

/-- The five tabular channels a CSV load rebuilds are the respective row
entries, appended in order. -/
theorem load_csv_go_scalars (nModes : ℕ) :
    ∀ (rows : List (List ℝ)) (h : HistoryData),
      (load_csv_go nModes h rows).time =
        h.time ++ rows.map (fun r => r.getD 0 0) ∧
      (load_csv_go nModes h rows).vc_mag =
        h.vc_mag ++ rows.map (fun r => r.getD 1 0) ∧
      (load_csv_go nModes h rows).vc_phase =
        h.vc_phase ++ rows.map (fun r => r.getD 2 0) ∧
      (load_csv_go nModes h rows).vr_mag =
        h.vr_mag ++ rows.map (fun r => r.getD 3 0) ∧
      (load_csv_go nModes h rows).detuning =
        h.detuning ++ rows.map (fun r => r.getD 4 0) := by
  intro rows
  induction rows with
  | nil => intro h; simp [load_csv_go]
  | cons row rest ih =>
      intro h
      obtain ⟨i1, i2, i3, i4, i5⟩ := ih (csvConsume nModes h row)
      refine ⟨?_, ?_, ?_, ?_, ?_⟩
      · rw [load_csv_go, i1]; simp [csvConsume]
      · rw [load_csv_go, i2]; simp [csvConsume]
      · rw [load_csv_go, i3]; simp [csvConsume]
      · rw [load_csv_go, i4]; simp [csvConsume]
      · rw [load_csv_go, i5]; simp [csvConsume]

/-- Distributing one row over the mode channels keeps the channel
count. -/
theorem mechLoad_length (row : List ℝ) (nModes : ℕ) :
    ∀ (l : List (List ℝ)) (i : ℕ), (mechLoad row nModes i l).length = l.length := by
  intro l
  induction l with
  | nil => intro i; rfl
  | cons ch rest ih => intro i; simp [mechLoad, ih]

/-- Value of one mode channel after distributing one row. -/
theorem mechLoad_getD (row : List ℝ) (nModes : ℕ) :
    ∀ (l : List (List ℝ)) (i j : ℕ), j < l.length → i + j < nModes →
      (i + j) + 5 < row.length →
      (mechLoad row nModes i l).getD j [] =
        l.getD j [] ++ [row.getD ((i + j) + 5) 0] := by
  intro l
  induction l with
  | nil => intro i j hj _ _; exact absurd hj (by simp)
  | cons ch rest ih =>
      intro i j hj hn hr
      cases j with
      | zero =>
          simp only [Nat.add_zero] at hn hr
          rw [show mechLoad row nModes i (ch :: rest) =
              (if i < nModes then
                (if i + 5 < row.length then ch ++ [row.getD (i + 5) 0] else ch)
               else ch) :: mechLoad row nModes (i + 1) rest from rfl]
          rw [if_pos hn, if_pos hr]
          simp
      | succ j =>
          have h1 : j < rest.length := by simpa using hj
          have h2 : (i + 1) + j < nModes := by omega
          have h3 : ((i + 1) + j) + 5 < row.length := by omega
          have := ih (i + 1) j h1 h2 h3
          show (mechLoad row nModes i (ch :: rest)).getD (j + 1) [] = _

          rw [show mechLoad row nModes i (ch :: rest) =
              (if i < nModes then
                (if i + 5 < row.length then ch ++ [row.getD (i + 5) 0] else ch)
               else ch) :: mechLoad row nModes (i + 1) rest from rfl]
          rw [List.getD_cons_succ, this]
          have heq : (i + 1) + j = i + (j + 1) := by omega
          rw [heq]
          simp [List.getD_cons_succ]

/-- A CSV load keeps the mode channel count. -/
theorem load_csv_go_mech_len (nModes : ℕ) :
    ∀ (rows : List (List ℝ)) (h : HistoryData),
      (load_csv_go nModes h rows).mech_modes.length = h.mech_modes.length := by
  intro rows
  induction rows with
  | nil => intro h; rfl
  | cons row rest ih =>
      intro h
      rw [load_csv_go, ih]
      simp [csvConsume, mechLoad_length]

/-- Value of one mode channel after a CSV load: the per-row entries of
the column of that mode, appended in order. -/
theorem load_csv_go_mech (nModes : ℕ) :
    ∀ (rows : List (List ℝ)) (h : HistoryData) (j : ℕ),
      j < h.mech_modes.length → j < nModes →
      (∀ r ∈ rows, 5 + nModes ≤ r.length) →
      (load_csv_go nModes h rows).mech_modes.getD j [] =
        h.mech_modes.getD j [] ++ rows.map (fun r => r.getD (j + 5) 0) := by
  intro rows
  induction rows with
  | nil => intro h j _ _ _; simp [load_csv_go]
  | cons row rest ih =>
      intro h j hj hn hrows
      have hrow : 5 + nModes ≤ row.length := hrows row (by simp)
      have hj2 : j < (csvConsume nModes h row).mech_modes.length := by
        simpa [csvConsume, mechLoad_length] using hj
      have hrest : ∀ r ∈ rest, 5 + nModes ≤ r.length := by
        intro r hr; exact hrows r (by simp [hr])
      rw [load_csv_go, ih (csvConsume nModes h row) j hj2 hn hrest]
      have hcons : (csvConsume nModes h row).mech_modes.getD j [] =
          h.mech_modes.getD j [] ++ [row.getD (j + 5) 0] := by
        show (mechLoad row nModes 0 h.mech_modes).getD j [] = _
        have := mechLoad_getD row nModes h.mech_modes 0 j hj
          (by simpa using hn) (by omega)
        simpa using this
      rw [hcons]
      simp

/-- Every CSV data row has the five tabular columns plus one column per
mode. -/
theorem save_csv_row_len (nModes : ℕ) (h : HistoryData) :
    ∀ r ∈ save_csv nModes h, 5 + nModes ≤ r.length := by
  intro r hr
  rw [save_csv] at hr
  obtain ⟨i, _, rfl⟩ := List.mem_map.mp hr
  simp [csvRow]
  omega

/-- The number of CSV data rows equals the number of samples. -/
theorem save_csv_len (nModes : ℕ) (h : HistoryData) :
    (save_csv nModes h).length = h.time.length := by
  simp [save_csv]

/-- Reading a column past the five fixed ones reads the mode part of the
row. -/
theorem getD_five_append (a b c d e : ℝ) (l : List ℝ) (j : ℕ) :
    ([a, b, c, d, e] ++ l).getD (j + 5) 0 = l.getD j 0 := by
  show (a :: b :: c :: d :: e :: l).getD (j + 5) 0 = l.getD j 0
  rw [show j + 5 = ((((j + 1) + 1) + 1) + 1) + 1 by omega]
  simp [List.getD_cons_succ]

/-- Reading every index of a list by `getD` reproduces the list. -/
theorem map_getD_range (l : List ℝ) (n : ℕ) (hlen : l.length = n) :
    (List.range n).map (fun i => l.getD i 0) = l := by
  subst hlen
  apply List.ext_getElem
  · simp
  · intro i h1 h2
    rw [List.getElem_map, List.getElem_range, List.getD_eq_getElem l 0 h2]

/-- CSV round trip of the five tabular channels. -/
theorem save_csv_col (nModes : ℕ) (h : HistoryData) (c : List ℝ) (k : ℕ)
    (hk : ∀ i, (csvRow nModes h i).getD k 0 = c.getD i 0)
    (hlen : c.length = h.time.length) :
    (save_csv nModes h).map (fun r => r.getD k 0) = c := by
  rw [save_csv, List.map_map]
  calc (List.range h.time.length).map ((fun r => r.getD k 0) ∘ csvRow nModes h)
      = (List.range h.time.length).map (fun i => c.getD i 0) := by
        refine List.map_congr_left ?_
        intro i _
        exact hk i
    _ = c := map_getD_range c h.time.length hlen

/-- The mode entries of one CSV row are the per-mode values at that
sample index. -/
theorem csvRow_mech_getD (nModes : ℕ) (h : HistoryData) (i j : ℕ)
    (hj : j < nModes) :
    (csvRow nModes h i).getD (j + 5) 0 =
      (if i < (h.mech_modes.getD j []).length
       then (h.mech_modes.getD j []).getD i 0 else 0) := by
  rw [csvRow, getD_five_append]
  have hlen : j < ((List.range nModes).map
      (fun j => if i < (h.mech_modes.getD j []).length
                then (h.mech_modes.getD j []).getD i 0 else 0)).length := by
    simpa using hj
  rw [List.getD_eq_getElem _ _ hlen, List.getElem_map, List.getElem_range]

/-- CSV round trip of one mode channel. -/
theorem save_csv_mech_col (nModes : ℕ) (h : HistoryData) (j : ℕ)
    (hj : j < nModes)
    (hlen : (h.mech_modes.getD j []).length = h.time.length) :
    (save_csv nModes h).map (fun r => r.getD (j + 5) 0) =
      h.mech_modes.getD j [] := by
  rw [save_csv, List.map_map]
  calc (List.range h.time.length).map
        ((fun r => r.getD (j + 5) 0) ∘ csvRow nModes h)
      = (List.range h.time.length).map
          (fun i => (h.mech_modes.getD j []).getD i 0) := by
        refine List.map_congr_left ?_
        intro i hi
        have hi2 : i < h.time.length := List.mem_range.mp hi
        show (csvRow nModes h i).getD (j + 5) 0 = _
        rw [csvRow_mech_getD nModes h i j hj,
            if_pos (by omega : i < (h.mech_modes.getD j []).length)]
    _ = _ := map_getD_range _ _ hlen

/-- Saving a well-formed store as CSV and loading it back reproduces the
five tabular channels and every mode channel, and resets all other
channels to the re-initialised (empty) state. -/
theorem load_save_csv (nModes : ℕ) (h : HistoryData)
    (hwf : wfHistory nModes h) :
    load_csv nModes (save_csv nModes h) =
      { initHistory nModes with
        time := h.time
        vc_mag := h.vc_mag
        vc_phase := h.vc_phase
        vr_mag := h.vr_mag
        detuning := h.detuning
        mech_modes := h.mech_modes } := by
  obtain ⟨w1, w2, w3, w4, w5, w6⟩ := hwf
  obtain ⟨u1, u2, u3, u4, u5, u6, u7, u8, u9⟩ :=
    load_csv_go_untouched nModes (save_csv nModes h) (initHistory nModes)
  obtain ⟨s1, s2, s3, s4, s5⟩ :=
    load_csv_go_scalars nModes (save_csv nModes h) (initHistory nModes)
  have hinit : (initHistory nModes).time = [] := rfl
  ext1
  · show (load_csv_go nModes (initHistory nModes) (save_csv nModes h)).time = _
    rw [s1, hinit, List.nil_append]
    exact save_csv_col nModes h h.time 0 (fun i => rfl) rfl
  · exact u1
  · exact u2
  · show (load_csv_go nModes (initHistory nModes) (save_csv nModes h)).vc_mag = _
    rw [s2]
    show [] ++ _ = _
    rw [List.nil_append]
    exact save_csv_col nModes h h.vc_mag 1 (fun i => rfl) w1
  · show (load_csv_go nModes (initHistory nModes) (save_csv nModes h)).vc_phase = _
    rw [s3]
    show [] ++ _ = _
    rw [List.nil_append]
    exact save_csv_col nModes h h.vc_phase 2 (fun i => rfl) w2
  · exact u3
  · exact u4
  · show (load_csv_go nModes (initHistory nModes) (save_csv nModes h)).vr_mag = _
    rw [s4]
    show [] ++ _ = _
    rw [List.nil_append]
    exact save_csv_col nModes h h.vr_mag 3 (fun i => rfl) w3
  · exact u5
  · show (load_csv_go nModes (initHistory nModes) (save_csv nModes h)).detuning = _
    rw [s5]
    show [] ++ _ = _
    rw [List.nil_append]
    exact save_csv_col nModes h h.detuning 4 (fun i => rfl) w4
  · show (load_csv_go nModes (initHistory nModes) (save_csv nModes h)).mech_modes
        = h.mech_modes
    have hload_len : (load_csv_go nModes (initHistory nModes)
        (save_csv nModes h)).mech_modes.length = nModes := by
      rw [load_csv_go_mech_len]
      simp [initHistory]
    apply List.ext_getElem
    · rw [hload_len, w5]
    · intro j hj1 hj2
      have hjn : j < nModes := by omega
      have hjinit : j < (initHistory nModes).mech_modes.length := by
        simp [initHistory]
        omega
      have hmech := load_csv_go_mech nModes (save_csv nModes h)
        (initHistory nModes) j hjinit hjn (save_csv_row_len nModes h)
      have hinitm : (initHistory nModes).mech_modes.getD j [] = [] := by
        rw [List.getD_eq_getElem _ _ hjinit]
        simp [initHistory]
      rw [← List.getD_eq_getElem _ ([] : List ℝ) hj1, hmech, hinitm,
          List.nil_append,
          save_csv_mech_col nModes h j hjn (w6 j hjn),
          List.getD_eq_getElem _ ([] : List ℝ) hj2]
  · exact u6
  · exact u7
  · exact u8
  · exact u9

/-- Decoding an encoded number array succeeds with the original list. -/
theorem decNumList_enc (l : List ℝ) : decNumList (l.map Jval.num) = some l := by
  induction l with
  | nil => rfl
  | cons x rest ih => simp [decNumList, ih]

/-- Decoding an encoded number channel succeeds with the original list. -/
theorem decNums_enc (l : List ℝ) : decNums (encNums l) = some l := by
  rw [encNums]
  show decNumList (l.map Jval.num) = some l
  exact decNumList_enc l

/-- Decoding an encoded boolean array succeeds with the original list. -/
theorem decBoolList_enc (l : List Bool) :
    decBoolList (l.map Jval.bool) = some l := by
  induction l with
  | nil => rfl
  | cons x rest ih => simp [decBoolList, ih]

/-- Decoding an encoded boolean channel succeeds with the original
list. -/
theorem decBools_enc (l : List Bool) : decBools (encBools l) = some l := by
  rw [encBools]
  show decBoolList (l.map Jval.bool) = some l
  exact decBoolList_enc l

/-- Decoding encoded nested channels succeeds with the original lists. -/
theorem decChanList_enc (l : List (List ℝ)) :
    decChanList (l.map encNums) = some l := by
  induction l with
  | nil => rfl
  | cons c rest ih => simp [decChanList, decNums_enc, ih]

/-- Decoding an encoded channel array succeeds with the original
channels. -/
theorem decChans_enc (l : List (List ℝ)) :
    decChans (Jval.arr (l.map encNums)) = some l := by
  show decChanList (l.map encNums) = some l
  exact decChanList_enc l

/-- Decoding the encoded control-parameter sub-dict recovers the four
channels. -/
theorem decodeCP_enc (amp phase fsrc : List ℝ) (pulsed : List Bool) :
    decodeCP (.obj [("amp", encNums amp), ("phase", encNums phase),
        ("fsrc", encNums fsrc), ("pulsed", encBools pulsed)]) =
      some (amp, phase, fsrc, pulsed) := by
  simp [decodeCP, decField, jfind, decNums_enc, decBools_enc]

/-- Decoding the encoded history dict recovers the full store. -/
theorem decodeHistory_enc (h : HistoryData) :
    decodeHistory (encodeHistory h) = some h := by
  rw [encodeHistory, decodeHistory]
  simp only [decField, jfind, decNums_enc, decBools_enc, decChans_enc,
    decodeCP_enc, String.reduceEq, if_true, if_false, reduceIte,
    Option.bind_some, Option.some_bind, Option.map_some]
  rfl

/-- The JSON branch of C3: saving a session as JSON and loading it back
reproduces the history store exactly. -/
theorem load_save_json (metadata : Jval) (h : HistoryData) :
    load_json (save_json metadata h) = some h := by
  rw [save_json, load_json]
  have hfind : jfind [("metadata", metadata), ("data", encodeHistory h)]
      "data" = some (encodeHistory h) := by
    simp [jfind]
  rw [hfind]
  show decodeHistory (encodeHistory h) = some h
  exact decodeHistory_enc h

/-- C3 (amended): for a well-formed store, the CSV round trip reproduces
exactly the tabular channels (time, cavity-voltage magnitude and phase,
reflected-voltage magnitude, detuning, and every per-mode channel) and
the row count, while every channel absent from the tabular encoding
comes back empty; the structured JSON round trip reproduces the full
store. -/
theorem c3_roundtrip (nModes : ℕ) (h : HistoryData) (metadata : Jval)
    (hwf : wfHistory nModes h) :
    load_csv nModes (save_csv nModes h) =
      { initHistory nModes with
        time := h.time
        vc_mag := h.vc_mag
        vc_phase := h.vc_phase
        vr_mag := h.vr_mag
        detuning := h.detuning
        mech_modes := h.mech_modes } ∧
    (load_csv nModes (save_csv nModes h)).time.length = h.time.length ∧
    load_json (save_json metadata h) = some h := by
  have hcsv := load_save_csv nModes h hwf
  refine ⟨hcsv, ?_, load_save_json metadata h⟩
  rw [hcsv]

/-- Witness for C3 at a concrete one-row store. -/
theorem c3_roundtrip_witness :
    wfHistory 1 h1 ∧ load_json (save_json (Jval.num 0) h1) = some h1 := by
  have hwf1 : wfHistory 1 h1 := by
    refine ⟨rfl, rfl, rfl, rfl, rfl, ?_⟩
    intro j hj
    have hj0 : j = 0 := by omega
    subst hj0
    rfl
  exact ⟨hwf1, (c3_roundtrip 1 h1 (Jval.num 0) hwf1).2.2⟩

/-- Counterexample to C3 as stated: the CSV encoding does not preserve
all channel values.  On a well-formed one-row store whose `vc_real`
channel holds `5`, saving as CSV and loading back yields an empty
`vc_real` channel, so the loaded store differs from the original. -/
theorem c3_counterexample :
    wfHistory 1 h0 ∧ h0.vc_real = [5] ∧
    (load_csv 1 (save_csv 1 h0)).vc_real = [] ∧
    load_csv 1 (save_csv 1 h0) ≠ h0 := by
  have hwf0 : wfHistory 1 h0 := by
    refine ⟨rfl, rfl, rfl, rfl, rfl, ?_⟩
    intro j hj
    have hj0 : j = 0 := by omega
    subst hj0
    rfl
  have hvr : (load_csv 1 (save_csv 1 h0)).vc_real = [] :=
    (load_csv_go_untouched 1 (save_csv 1 h0) (initHistory 1)).1
  refine ⟨hwf0, rfl, hvr, ?_⟩
  intro heq
  have hcol := congrArg HistoryData.vc_real heq
  rw [hvr] at hcol
  exact absurd hcol (by simp [h0])

end VirtualCavity
